import Mathlib

/-!
Verification of the fashion-news posting pipeline (src/main.py).

Python strings are modelled as lists of Unicode code points (List Char);
Python len, slicing and membership then agree with List.length, List.take
and substring search on code points.  The SHA-256 digest from hashlib is an
external library function whose internals none of the verified properties
depend on; it is passed as an explicit parameter sha to every definition
that hashes, so every theorem holds for an arbitrary digest function and a
witness can instantiate it with a concrete one.

Unicode modelling notes, used consistently on both the code side and the
spec side of every statement:
 - str.lower is modelled on the ASCII range (the repository's titles are
   Persian — an uncased script — plus ASCII);
 - the regex class backslash-w is modelled as ASCII alphanumerics plus
   underscore (Persian letters are covered by the explicit U+0600–U+06FF
   range that the source keeps alongside it);
 - str.split() / regex backslash-s whitespace is the standard Unicode
   whitespace set.
All concrete inputs appearing in witnesses and counterexamples stay inside
the accurately modelled character ranges.
-/

namespace FashionBot

/-- ASCII lowercasing of one code point, modelling Python str.lower on the
character ranges exercised by this repository. -/
def asciiLower (c : Char) : Char :=
  if 65 ≤ c.toNat ∧ c.toNat ≤ 90 then Char.ofNat (c.toNat + 32) else c

/-- Unicode whitespace, as recognised by Python str.split, str.strip and the
regex class backslash-s. -/
def pyIsSpace (c : Char) : Bool :=
  (9 ≤ c.toNat && c.toNat ≤ 13) ||
  (28 ≤ c.toNat && c.toNat ≤ 32) ||
  c.toNat == 133 || c.toNat == 160 || c.toNat == 5760 ||
  (8192 ≤ c.toNat && c.toNat ≤ 8202) ||
  c.toNat == 8232 || c.toNat == 8233 || c.toNat == 8239 ||
  c.toNat == 8287 || c.toNat == 12288

/-- Zero-width and directional-mark characters removed by the source's regex
`[‌‍‎‏﻿]`. -/
def isZeroWidth (c : Char) : Bool :=
  c.toNat == 0x200c || c.toNat == 0x200d || c.toNat == 0x200e ||
  c.toNat == 0x200f || c.toNat == 0xfeff

/-- Arabic diacritics removed by the source's regex `[ً-ٰٟ]`. -/
def isArabicDiacritic (c : Char) : Bool :=
  (0x64b ≤ c.toNat && c.toNat ≤ 0x65f) || c.toNat == 0x670

/-- Word characters of the regex class backslash-w (see the Unicode
modelling notes in the file header). -/
def isWordChar (c : Char) : Bool :=
  (97 ≤ c.toNat && c.toNat ≤ 122) || (65 ≤ c.toNat && c.toNat ≤ 90) ||
  (48 ≤ c.toNat && c.toNat ≤ 57) || c.toNat == 95

/-- The Arabic Unicode block `؀-ۿ` preserved by the source's
punctuation-stripping regex. -/
def inArabicBlock (c : Char) : Bool :=
  0x600 ≤ c.toNat && c.toNat ≤ 0x6ff

/-- Arabic yeh (U+064A), written ي in the source. -/
def arabicYeh : Char := Char.ofNat 0x64a

/-- Farsi yeh (U+06CC), written ی in the source. -/
def farsiYeh : Char := Char.ofNat 0x6cc

/-- Arabic kaf (U+0643), written ك in the source. -/
def arabicKaf : Char := Char.ofNat 0x643

/-- Farsi keheh (U+06A9), written ک in the source. -/
def farsiKaf : Char := Char.ofNat 0x6a9

/-- Arabic teh marbuta (U+0629), written ة in the source. -/
def tehMarbuta : Char := Char.ofNat 0x629

/-- Arabic heh (U+0647), written ه in the source. -/
def hehChar : Char := Char.ofNat 0x647

/-- Arabic waw with hamza (U+0624), written ؤ in the source. -/
def wawHamza : Char := Char.ofNat 0x624

/-- Arabic waw (U+0648), written و in the source. -/
def wawChar : Char := Char.ofNat 0x648

/-- Arabic alef with hamza below (U+0625), written إ in the source. -/
def alefHamzaBelow : Char := Char.ofNat 0x625

/-- Arabic alef with hamza above (U+0623), written أ in the source. -/
def alefHamzaAbove : Char := Char.ofNat 0x623

/-- Arabic alef (U+0627), written ا in the source. -/
def alefChar : Char := Char.ofNat 0x627

/-- Arabic yeh with hamza (U+0626), written ئ in the source. -/
def yehHamza : Char := Char.ofNat 0x626

/-- Arabic alef maqsura (U+0649), written ى in the source. -/
def alefMaqsura : Char := Char.ofNat 0x649

/-- Python str.replace with a single-character pattern and a
single-character replacement, which is exactly a character map. -/
def repChar (a b : Char) (l : List Char) : List Char :=
  l.map fun c => if c = a then b else c

/-- Python str.lstrip of whitespace. -/
def pyLStrip (l : List Char) : List Char := l.dropWhile pyIsSpace

/-- Python str.rstrip of whitespace. -/
def pyRStrip (l : List Char) : List Char :=
  (l.reverse.dropWhile pyIsSpace).reverse

/-- Python str.strip of whitespace. -/
def pyStrip (l : List Char) : List Char := pyRStrip (pyLStrip l)

/-- One step of segmenting a string at whitespace, consuming one character on
the left of an already-segmented tail.  Together with the fold in spRaw this
gives the segments of the string between whitespace characters, adjacent
separators producing empty segments. -/
def spF (c : Char) (acc : List (List Char)) : List (List Char) :=
  match acc with
  | [] => [[]]
  | t :: ts => if pyIsSpace c then [] :: t :: ts else (c :: t) :: ts

/-- All whitespace-separated segments of a string, including empty ones. -/
def spRaw (l : List Char) : List (List Char) := l.foldr spF [[]]

/-- Python str.split() with no argument: the whitespace-delimited tokens of
a string, with no empty tokens. -/
def pySplit (l : List Char) : List (List Char) :=
  (spRaw l).filter fun t => !t.isEmpty

/-- Python str.join generalised to lists of code points. -/
def pyJoin (sep : List Char) : List (List Char) → List Char
  | [] => []
  | [t] => t
  | t :: ts => t ++ sep ++ pyJoin sep ts

/-- Python sorted on a list of strings: the unique arrangement of the list
that is sorted in the lexicographic code-point order. -/
def sortTokens (ts : List (List Char)) : List (List Char) :=
  List.insertionSort (fun a b : List Char => a ≤ b) ts

/-- Source `_normalize_for_hash` (src/main.py:996): lowercase and strip,
remove zero-width characters, unify Arabic letter variants, remove
diacritics, replace punctuation by spaces, then sort the whitespace tokens
and rejoin them with single spaces. -/
def normalize_for_hash (title : List Char) : List Char :=
  if title = [] then []
  else
    let t := pyStrip (title.map asciiLower)
    let t := t.filter fun c => !isZeroWidth c
    let t := repChar arabicKaf farsiKaf (repChar arabicYeh farsiYeh t)
    let t := repChar wawHamza wawChar (repChar tehMarbuta hehChar t)
    let t := repChar alefHamzaAbove alefChar (repChar alefHamzaBelow alefChar t)
    let t := repChar alefMaqsura farsiYeh (repChar yehHamza farsiYeh t)
    let t := t.filter fun c => !isArabicDiacritic c
    let t := t.map fun c =>
      if isWordChar c || pyIsSpace c || inArabicBlock c then c else ' '
    pyJoin [' '] (sortTokens (pySplit t))

/-- Source `_make_title_hash` (src/main.py:1024): the digest of the
normalized, token-sorted title.  The digest function sha models
hashlib.sha256-hexdigest and is an explicit parameter (see file header). -/
def make_title_hash (sha : List Char → List Char) (title : List Char) :
    List Char :=
  sha (normalize_for_hash title)

/-- Source `_make_content_hash` (src/main.py:1034): the digest of a lighter
normalization of the title, with token order preserved. -/
def make_content_hash (sha : List Char → List Char) (title : List Char) :
    List Char :=
  let t := pyStrip (title.map asciiLower)
  let t := t.filter fun c => !isZeroWidth c
  let t := repChar arabicKaf farsiKaf (repChar arabicYeh farsiYeh t)
  let t := repChar tehMarbuta hehChar t
  sha t

/-- The light normalization exactly as the specification words it for the
content hash: case-folding, zero-width-character stripping, and unification
of the two letter variants (Arabic yeh to Persian yeh and Arabic kaf to
Persian kaf) only, with no other character replacements. -/
def specContentNormalize (title : List Char) : List Char :=
  let t := title.map asciiLower
  let t := t.filter fun c => !isZeroWidth c
  let t := repChar arabicKaf farsiKaf (repChar arabicYeh farsiYeh t)
  t

/-- The light normalization as amended to match the code: case-folding,
leading-and-trailing whitespace trimming, zero-width-character stripping,
unification of Arabic yeh to Persian yeh and of Arabic kaf to Persian kaf,
and additionally unification of Arabic teh marbuta to heh, with token order
preserved. -/
def specContentNormalizeAmended : List Char → List Char :=
  repChar tehMarbuta hehChar ∘
  repChar arabicKaf farsiKaf ∘
  repChar arabicYeh farsiYeh ∘
  (List.filter fun c => !isZeroWidth c) ∘
  pyStrip ∘
  List.map asciiLower

/-- The Arabic-letter-variant unification of `_normalize_for_hash` as one
character function: the source's eight sequential single-character
replaces compose to this map because no replacement output is a later
replacement input. -/
def repChain (c : Char) : Char :=
  let c := if c = arabicYeh then farsiYeh else c
  let c := if c = arabicKaf then farsiKaf else c
  let c := if c = tehMarbuta then hehChar else c
  let c := if c = wawHamza then wawChar else c
  let c := if c = alefHamzaBelow then alefChar else c
  let c := if c = alefHamzaAbove then alefChar else c
  let c := if c = yehHamza then farsiYeh else c
  let c := if c = alefMaqsura then farsiYeh else c
  c

/-- The character pipeline of `_normalize_for_hash` after lowercasing and
stripping, fused into one per-character function: drop zero-width
characters, unify letter variants, drop diacritics, and turn everything
outside the kept classes into a space. -/
def normCharCore (c : Char) : Option Char :=
  if isZeroWidth c then none
  else
    let r := repChain c
    if isArabicDiacritic r then none
    else some (if isWordChar r || pyIsSpace r || inArabicBlock r then r
      else ' ')

/-- The whole per-character normalization, lowercasing included. -/
def normChar (c : Char) : Option Char := normCharCore (asciiLower c)

/-- The list-level stage chain of `_normalize_for_hash` between the strip
and the token split, exactly as the source sequences it. -/
def normStages (l : List Char) : List Char :=
  let t := l.filter fun c => !isZeroWidth c
  let t := repChar arabicKaf farsiKaf (repChar arabicYeh farsiYeh t)
  let t := repChar wawHamza wawChar (repChar tehMarbuta hehChar t)
  let t := repChar alefHamzaAbove alefChar (repChar alefHamzaBelow alefChar t)
  let t := repChar alefMaqsura farsiYeh (repChar yehHamza farsiYeh t)
  let t := t.filter fun c => !isArabicDiacritic c
  t.map fun c => if isWordChar c || pyIsSpace c || inArabicBlock c then c
    else ' '

/-- Substring search starting at the head: true when the second list is a
prefix of the first. -/
def startsWith : List Char → List Char → Bool
  | _, [] => true
  | [], _ :: _ => false
  | c :: cs, d :: ds => c == d && startsWith cs ds

/-- Python substring membership (the `in` operator on strings): the needle
occurs contiguously somewhere in the haystack. -/
def containsSub : List Char → List Char → Bool
  | [], needle => startsWith [] needle
  | c :: cs, needle => startsWith (c :: cs) needle || containsSub cs needle

/-- Source POSITIVE_KEYWORDS (src/main.py:207). -/
def POSITIVE_KEYWORDS : List (List Char) :=
  ["مد".toList, "فشن".toList, "استایل".toList, "زیبایی".toList,
   "لباس".toList, "پوشاک".toList,
   "طراحی لباس".toList, "ترند".toList, "کلکسیون".toList, "برند".toList,
   "سیزن".toList,
   "آرایش".toList, "مانتو".toList, "پیراهن".toList, "کت".toList,
   "شلوار".toList, "کیف".toList,
   "کفش".toList, "اکسسوری".toList, "جواهر".toList, "طلا".toList,
   "عطر".toList, "نگین".toList,
   "پالتو".toList, "ست لباس".toList, "مزون".toList, "خیاطی".toList,
   "بافت".toList, "تونیک".toList,
   "بلوز".toList, "دامن".toList, "شنل".toList, "کاپشن".toList,
   "جوراب".toList, "روسری".toList,
   "پارچه".toList, "طرح".toList, "دوخت".toList, "برند ایرانی".toList,
   "محصول جدید".toList,
   "fashion".toList, "style".toList, "beauty".toList, "clothing".toList,
   "trend".toList,
   "outfit".toList, "couture".toList, "collection".toList,
   "lookbook".toList, "brand".toList,
   "wardrobe".toList, "luxury".toList, "designer".toList,
   "new arrival".toList, "product".toList,
   "coat".toList, "dress".toList, "blouse".toList, "skirt".toList,
   "jacket".toList, "accessory".toList]

/-- Source NEGATIVE_KEYWORDS (src/main.py:221). -/
def NEGATIVE_KEYWORDS : List (List Char) :=
  ["فیلم".toList, "سینما".toList, "سریال".toList, "بازیگر".toList,
   "کارگردان".toList, "اسکار".toList,
   "صبحانه".toList, "رژیم غذایی".toList, "طرز تهیه".toList,
   "دستور پخت".toList, "آشپزی".toList,
   "اپل".toList, "گوگل".toList, "آیفون".toList, "سامسونگ".toList,
   "تکنولوژی".toList, "گیم".toList,
   "فوتبال".toList, "والیبال".toList, "ورزش".toList, "تیم ملی".toList,
   "لیگ".toList,
   "بورس".toList, "ارز".toList, "دلار".toList, "سکه".toList,
   "بیت کوین".toList, "اقتصاد".toList,
   "انتخابات".toList, "سیاسی".toList, "مجلس".toList, "دولت".toList,
   "وزیر".toList,
   "زلزله".toList, "سیل".toList, "آتش سوزی".toList, "تصادف".toList,
   "حادثه".toList, "کشته".toList]

/-- Source FIXED_HASHTAGS (src/main.py:231), the two adjacent string
literals concatenated. -/
def FIXED_HASHTAGS : List Char :=
  "#مد #استایل #ترند #برند_ایرانی #فشن_ایرانی #fashion #IranianFashion #style".toList

/-- Source limit MAX_DESC_CHARS (src/main.py:237). -/
def MAX_DESC_CHARS : Nat := 350

/-- Source limit MAX_IMAGES (src/main.py:238). -/
def MAX_IMAGES : Nat := 5

/-- Source limit CAPTION_MAX (src/main.py:239). -/
def CAPTION_MAX : Nat := 1020

/-- Source limit PUBLISH_BATCH_SIZE (src/main.py:241). -/
def PUBLISH_BATCH_SIZE : Nat := 25

/-- Source timeout FEEDS_TOTAL_TIMEOUT in seconds (src/main.py:246). -/
def FEEDS_TOTAL_TIMEOUT : Int := 25

/-- Source timeout PAGE_TIMEOUT in seconds (src/main.py:247). -/
def PAGE_TIMEOUT : Int := 6

/-- Source timeout DB_TIMEOUT in seconds (src/main.py:248). -/
def DB_TIMEOUT : Int := 5

/-- Source time window HOURS_THRESHOLD (src/main.py:255). -/
def HOURS_THRESHOLD : Nat := 168

/-- Python min on two numbers: the first argument when the two are equal.
Clock readings and budgets are modelled in whole seconds (integers): every
budget threshold the source compares against is an integer, so the
branching structure of the run is represented faithfully. -/
def pyMinInt (a b : Int) : Int := if a ≤ b then a else b

/-- The netloc component of urllib.parse.urlparse, modelled for the
absolute http(s) URLs this repository handles: the text between the first
double slash and the next slash, question mark or hash. -/
def afterDoubleSlash : List Char → Option (List Char)
  | [] => none
  | '/' :: '/' :: rest => some rest
  | _ :: cs => afterDoubleSlash cs

/-- Network host of a URL, as urlparse(url).netloc. -/
def urlNetloc (u : List Char) : List Char :=
  match afterDoubleSlash u with
  | none => []
  | some rest => rest.takeWhile fun c => !(c == '/' || c == '?' || c == '#')

/-- Python str.replace with a multi-character pattern: every occurrence of
the pattern is replaced, scanning left to right without rescanning the
replacement text. -/
def replaceSub (pat rep : List Char) (l : List Char) : List Char :=
  match l with
  | [] => []
  | c :: cs =>
    if pat ≠ [] ∧ startsWith (c :: cs) pat then
      rep ++ replaceSub pat rep (cs.drop (pat.length - 1))
    else
      c :: replaceSub pat rep cs
termination_by l.length
decreasing_by
  · simp only [List.length_cons, List.length_drop]
    omega
  · simp only [List.length_cons]
    omega

/-- Source `_make_domain_hash` (src/main.py:1047): digest of the lowercased
network host of the feed URL.  The try-except around urlparse is not
modelled because the modelled urlparse is total. -/
def make_domain_hash (sha : List Char → List Char) (feed_url : List Char) :
    List Char :=
  sha ((urlNetloc feed_url).map asciiLower)

/-- The brand-name tokens used for leniency in `_is_fashion` and for
scoring in `_calc_trend_score`: split the brand name on whitespace after
replacing the vertical bar, keep tokens whose stripped length is at least
four, lowercased. -/
def brandParts (brand_name : List Char) : List (List Char) :=
  ((pySplit (repChar '|' ' ' brand_name)).filter
    fun p => 4 ≤ (pyStrip p).length).map
    fun p => (pyStrip p).map asciiLower

/-- Source `_is_fashion` (src/main.py:1079): the relevance cascade.  A
block-list hit rejects; otherwise an allow-list hit accepts; otherwise a
brand-name token in the text accepts; otherwise the first label of the feed
domain in the text accepts; otherwise reject. -/
def is_fashion (title desc feed_url brand_name : List Char) : Bool :=
  let combined := (title ++ [' '] ++ desc).map asciiLower
  if NEGATIVE_KEYWORDS.any (fun kw => containsSub combined kw) then false
  else if POSITIVE_KEYWORDS.any (fun kw => containsSub combined kw) then true
  else if (brandParts brand_name).any (fun part => containsSub combined part)
    then true
  else
    let domain :=
      (replaceSub "www.".toList [] (urlNetloc feed_url)).map asciiLower
    !domain.isEmpty &&
      containsSub combined (domain.takeWhile fun c => !(c == '.'))

/-- Source high_value keyword list inside `_calc_trend_score`
(src/main.py:1141). -/
def HIGH_VALUE_KEYWORDS : List (List Char) :=
  ["کلکسیون".toList, "collection".toList, "new arrival".toList,
   "محصول جدید".toList, "ترند".toList, "trend".toList, "lookbook".toList]

/-- Source `_calc_trend_score` (src/main.py:1121): keyword-density score,
one point per allow-list hit, two per brand-name token hit, three per
high-value keyword in the title, capped at 100 by Python min. -/
def calc_trend_score (title desc brand_name : List Char) : Int :=
  let combined := (title ++ [' '] ++ desc).map asciiLower
  let score : Int := POSITIVE_KEYWORDS.foldl
    (fun s kw => if containsSub combined kw then s + 1 else s) 0
  let score := (brandParts brand_name).foldl
    (fun s part => if containsSub combined part then s + 2 else s) score
  let title_lower := title.map asciiLower
  let score := HIGH_VALUE_KEYWORDS.foldl
    (fun s kw => if containsSub title_lower kw then s + 3 else s) score
  if score ≤ 100 then score else 100

/-- Python str.replace with a single-character pattern and a
multi-character replacement: each occurrence of the character expands to
the replacement text. -/
def expandChar (a : Char) (r : List Char) (l : List Char) : List Char :=
  l.flatMap fun c => if c = a then r else [c]

/-- Source `_escape_html` (src/main.py:1067): the three sequential replaces
of ampersand, less-than and greater-than.  Because the pattern of each
replace is a single character that the earlier replacements never
introduce ahead of their own scan position, the sequential composition
below computes exactly what the source computes. -/
def escapeHtml (l : List Char) : List Char :=
  expandChar '>' "&gt;".toList
    (expandChar '<' "&lt;".toList
      (expandChar '&' "&amp;".toList l))

/-- A publication timestamp: an absolute time in seconds used for the
recency comparisons, together with the calendar fields that
datetime.strftime renders.  Years are at most 9999 in Python datetimes. -/
structure PubDate where
  ts : Int
  y : Nat
  mo : Nat
  d : Nat
  hh : Nat
  mi : Nat
deriving DecidableEq

/-- Decimal digits of a number, zero-padded on the left to width two. -/
def pad2 (n : Nat) : List Char :=
  let s := Nat.toDigits 10 n
  List.replicate (2 - s.length) '0' ++ s

/-- Decimal digits of a number, zero-padded on the left to width four. -/
def pad4 (n : Nat) : List Char :=
  let s := Nat.toDigits 10 n
  List.replicate (4 - s.length) '0' ++ s

/-- The fixed caption date format of the source, strftime with the pattern
year-month-day hour:minute UTC (src/main.py:1303). -/
def strftimeDate (p : PubDate) : List Char :=
  pad4 p.y ++ "-".toList ++ pad2 p.mo ++ "-".toList ++ pad2 p.d ++
  " ".toList ++ pad2 p.hh ++ ":".toList ++ pad2 p.mi ++ " UTC".toList

/-- The optional date line of the caption (src/main.py:1301). -/
def dateLine (pub_date : Option PubDate) : List Char :=
  match pub_date with
  | none => []
  | some p => "📅 ".toList ++ strftimeDate p

/-- The brand header line of the caption. -/
def captionBrandLine (safe_brand : List Char) : List Char :=
  "🏷️ ".toList ++ safe_brand

/-- The bold title line of the caption. -/
def captionTitleLine (safe_title : List Char) : List Char :=
  "💠 <b>".toList ++ safe_title ++ "</b>".toList

/-- The horizontal rule line of the caption. -/
def captionSepLine : List Char := "─────────────".toList

/-- The link-and-identity line of the caption; the link is interpolated
unescaped, exactly as in the source f-string. -/
def captionLinkLine (link : List Char) : List Char :=
  "🔗 <a href=\"".toList ++ link ++
  "\">ادامه مطلب</a> | 🆔 @irfashionnews".toList

/-- The parts list the caption is joined from (src/main.py:1308): brand
line, title line, rule, then the description and the date line only when
nonempty, then the link line and the hashtag line. -/
def captionParts (safe_brand safe_title safe_desc date_line link
    hashtag_line : List Char) : List (List Char) :=
  [captionBrandLine safe_brand, captionTitleLine safe_title,
   captionSepLine] ++
  (if safe_desc ≠ [] then [safe_desc] else []) ++
  (if date_line ≠ [] then [date_line] else []) ++
  [captionLinkLine link, hashtag_line]

/-- The caption before the overflow trim: the parts joined by blank
lines. -/
def untrimmedCaption (title desc link brand_name brand_tag : List Char)
    (pub_date : Option PubDate) : List Char :=
  pyJoin "\n\n".toList
    (captionParts (escapeHtml (pyStrip brand_name))
      (escapeHtml (pyStrip title)) (escapeHtml (pyStrip desc))
      (dateLine pub_date) link (brand_tag ++ [' '] ++ FIXED_HASHTAGS))

/-- Source `_build_caption` (src/main.py:1276): build the joined caption;
if it exceeds CAPTION_MAX and the escaped description is nonempty, shorten
the description by the overflow plus five characters (clamped at zero,
as Python max(0, ...)), append an ellipsis and rebuild; otherwise return
the caption unchanged. -/
def build_caption (title desc link brand_name brand_tag : List Char)
    (pub_date : Option PubDate) : List Char :=
  let safe_brand := escapeHtml (pyStrip brand_name)
  let safe_title := escapeHtml (pyStrip title)
  let safe_desc := escapeHtml (pyStrip desc)
  let hashtag_line := brand_tag ++ [' '] ++ FIXED_HASHTAGS
  let date_line := dateLine pub_date
  let caption := pyJoin "\n\n".toList
    (captionParts safe_brand safe_title safe_desc date_line link
      hashtag_line)
  if CAPTION_MAX < caption.length then
    if safe_desc ≠ [] then
      let overflow := caption.length - CAPTION_MAX
      let safe_desc2 :=
        safe_desc.take (safe_desc.length - overflow - 5) ++ ['…']
      pyJoin "\n\n".toList
        (captionParts safe_brand safe_title safe_desc2 date_line link
          hashtag_line)
    else caption
  else caption

/-- Source FASHION_STICKERS (src/main.py:271): the pool of decorative
sticker identifiers.  Only its nonemptiness is observable in the publish
protocol. -/
def FASHION_STICKERS : List (List Char) :=
  ["CAACAgIAAxkBAAIBmGRx1yRFMVhVqVXLv_dAAXJMOdFNAAIUAAOVgnkAAVGGBbBjxbg4LwQ".toList,
   "CAACAgIAAxkBAAIBmWRx1yRqy9JkN2DmV_Z2sRsKdaTjAAIVAAOVgnkAAc8R3q5p5-AELAQ".toList,
   "CAACAgIAAxkBAAIBmmRx1yS2T2gfLqJQX9oK6LZqp1HIAAIWAAO0yXAAAV0MzCRF3ZRILAQ".toList,
   "CAACAgIAAxkBAAIBm2Rx1ySiJV4dVeTuCTc-RfFDnfQpAAIXAAO0yXAAAA3Vm7IiJdisLAQ".toList,
   "CAACAgIAAxkBAAIBnGRx1yT_jVlWt5xPJ7BO9aQ4JvFaAAIYAAO0yXAAAA0k9GZDQpLcLAQ".toList]

/-- One outbound call of the publish protocol, as observed on the wire:
a grouped-album send, a single-photo send, the caption message with its
optional reply-to anchor, or the decorative sticker send. -/
inductive TgEv where
  | album (urls : List (List Char))
  | photo (url : List Char)
  | caption (text : List Char) (replyTo : Option Nat)
  | sticker
deriving DecidableEq

/-- Outcomes of the messaging backend for one `_post_to_telegram`
invocation.  Each call site runs at most once, so one field per call
site suffices: album is none when send_media_group raises a
TelegramError and otherwise carries the message identifiers of the sent
group; photo is none when send_photo raises and otherwise carries the sent
message identifier; captionOk and stickerOk tell whether send_message and
send_sticker succeed.  Which sticker random.choice picks is not
observable in any verified property. -/
structure TgOracle where
  album : Option (List Nat)
  photo : Option Nat
  captionOk : Bool
  stickerOk : Bool

/-- Source `_post_to_telegram` (src/main.py:1358), returning the reported
success, the anchor established by the image step, and the trace of
outbound calls in order.  With two or more images the album is attempted
and on TelegramError the first image is retried alone (the source guard
`if image_urls:` always holds there); with exactly one image that image is
sent alone; each photo failure leaves the protocol with no anchor.  The
caption is then sent, replying to the anchor when one exists; a caption
failure returns failure immediately.  Finally, since the sticker pool
constant is nonempty, a sticker send is attempted whose failure is
ignored.  The last message of a successful album response is the anchor,
as sent[-1]; Telegram returns one message per item sent, so the response
list of a successful album is never empty. -/
def post_to_telegram (o : TgOracle) (image_urls : List (List Char))
    (caption : List Char) : Bool × Option Nat × List TgEv :=
  let step1 : Option Nat × List TgEv :=
    match image_urls with
    | [] => (none, [])
    | [u] =>
      match o.photo with
      | some mid => (some mid, [TgEv.photo u])
      | none => (none, [TgEv.photo u])
    | u :: _ :: _ =>
      match o.album with
      | some sent => (sent.getLast?, [TgEv.album (image_urls.take MAX_IMAGES)])
      | none =>
        match o.photo with
        | some mid =>
          (some mid, [TgEv.album (image_urls.take MAX_IMAGES), TgEv.photo u])
        | none =>
          (none, [TgEv.album (image_urls.take MAX_IMAGES), TgEv.photo u])
  let anchor := step1.1
  let evs := step1.2 ++ [TgEv.caption caption anchor]
  if !o.captionOk then (false, anchor, evs)
  else if !FASHION_STICKERS.isEmpty then (true, anchor, evs ++ [TgEv.sticker])
  else (true, anchor, evs)

/-- The process environment, restricted to the seven variables
`_load_config` reads; none means the variable is absent. -/
structure Env where
  token : Option String
  chatId : Option String
  endpoint : Option String
  project : Option String
  key : Option String
  databaseId : Option String
  collectionId : Option String

/-- Python falsiness of an optional environment value: absent or empty. -/
def strFalsy : Option String → Bool
  | none => true
  | some s => s.isEmpty

/-- The configuration record `_load_config` returns. -/
structure Config where
  token : String
  chatId : String
  endpoint : String
  project : String
  key : String
  databaseId : String
  collectionId : String

/-- Source `_load_config` (src/main.py:923): read the seven variables,
defaulting the endpoint and the collection identifier, and return none
when any of the seven resulting values is falsy. -/
def loadConfig (e : Env) : Option Config :=
  let endpoint := e.endpoint.getD "https://fra.cloud.appwrite.io/v1"
  let collection := e.collectionId.getD "fashion_db"
  if strFalsy e.token || strFalsy e.chatId || endpoint.isEmpty ||
      strFalsy e.project || strFalsy e.key || strFalsy e.databaseId ||
      collection.isEmpty then
    none
  else
    some ⟨e.token.getD "", e.chatId.getD "", endpoint, e.project.getD "",
      e.key.getD "", e.databaseId.getD "", collection⟩

/-- One candidate entry of Phase 3, the fields the loop body reads.  The
raw feedparser entry object only feeds the image extraction, which is
modelled at its interface by the per-item oracle. -/
structure Item where
  title : List Char
  desc : List Char
  link : List Char
  brand : List Char
  tag : List Char
  feed_url : List Char
  category : List Char
  source_type : List Char
  pub_date : Option PubDate
deriving DecidableEq

/-- The external responses one Phase 3 iteration can consume: the value of
`_time_left()` at each of the checkpoints of the loop body, the durable
store response to `db.save` (none models the asyncio timeout of the
caller, in which case no result is observed), the image-collection result
(none models its timeout, giving an empty list), and the publish outcome
(none models the asyncio timeout, treated as failure). -/
structure ItemOracle where
  tlTop : Int
  tlSave : Int
  tlImg : Int
  tlPost : Int
  tlAfterPost : Int
  saveResp : Option Bool
  imgResp : Option (List (List Char))
  postResp : Option Bool

/-- One external call of the run, as observed at the process boundary:
the parallel feed fetch of Phase 1, the bulk load of Phase 2, a durable
save with its outcome, an image collection, or a publish attempt with its
outcome.  Save and publish events record the fingerprint (title hash) of
their candidate. -/
inductive Ev where
  | fetchFeeds
  | dbLoad
  | dbSave (titleHash : List Char) (outcome : Option Bool)
  | collectImages (link : List Char)
  | tgPost (titleHash : List Char) (outcome : Option Bool)
deriving DecidableEq

/-- The mutable state the Phase 3 loop threads between iterations: the
three bulk-loaded dedup sets, the in-run posted set (Python sets modelled
as lists queried by membership), and the statistics counters the summary
reports. -/
structure P3State where
  knownTitle : List (List Char)
  knownContent : List (List Char)
  knownLinks : List (List Char)
  postedHashes : List (List Char)
  skipTime : Nat
  skipFilter : Nat
  skipDupe : Nat
  posted : Nat
  errors : Nat
deriving DecidableEq

/-- Increment of the skipped-by-time counter. -/
def P3State.addSkipTime (st : P3State) : P3State :=
  ⟨st.knownTitle, st.knownContent, st.knownLinks, st.postedHashes,
   st.skipTime + 1, st.skipFilter, st.skipDupe, st.posted, st.errors⟩

/-- Increment of the skipped-by-filter counter. -/
def P3State.addSkipFilter (st : P3State) : P3State :=
  ⟨st.knownTitle, st.knownContent, st.knownLinks, st.postedHashes,
   st.skipTime, st.skipFilter + 1, st.skipDupe, st.posted, st.errors⟩

/-- Increment of the skipped-as-duplicate counter. -/
def P3State.addSkipDupe (st : P3State) : P3State :=
  ⟨st.knownTitle, st.knownContent, st.knownLinks, st.postedHashes,
   st.skipTime, st.skipFilter, st.skipDupe + 1, st.posted, st.errors⟩

/-- Increment of the posted counter. -/
def P3State.addPosted (st : P3State) : P3State :=
  ⟨st.knownTitle, st.knownContent, st.knownLinks, st.postedHashes,
   st.skipTime, st.skipFilter, st.skipDupe, st.posted + 1, st.errors⟩

/-- Increment of the error counter. -/
def P3State.addErrors (st : P3State) : P3State :=
  ⟨st.knownTitle, st.knownContent, st.knownLinks, st.postedHashes,
   st.skipTime, st.skipFilter, st.skipDupe, st.posted, st.errors + 1⟩

/-- The four set insertions performed after a successful save
(src/main.py:516). -/
def P3State.addKnown (st : P3State) (th ch lk : List Char) : P3State :=
  ⟨th :: st.knownTitle, ch :: st.knownContent, lk :: st.knownLinks,
   th :: st.postedHashes, st.skipTime, st.skipFilter, st.skipDupe,
   st.posted, st.errors⟩

/-- The Phase 3 loop body of main (src/main.py:414), for one candidate:
the two stop checks (time floor and batch cap), the age window, the
relevance filter, the fingerprint computation, the four dedup checks, the
save-budget stop check, the save with its three outcomes, the bounded
image collection, the caption build, the publish-budget stop check, and
the publish attempt.  The body is split here into the gate checks
(processItem) and the save-then-publish tail below, mirroring the SAVE
and POST sections of the source; both return the updated state, the
external calls made, and whether the loop continues to the next
candidate. -/
def savePublish (st : P3State) (it : Item) (o : ItemOracle)
    (th ch : List Char) : P3State × List Ev × Bool :=
  match o.saveResp with
  | none => (st.addErrors, [Ev.dbSave th none], true)
  | some false => (st.addSkipDupe, [Ev.dbSave th (some false)], true)
  | some true =>
    let st1 := st.addKnown th ch it.link
    let img_budget := pyMinInt PAGE_TIMEOUT (o.tlImg - 8)
    let evs1 :=
      if 2 < img_budget then
        [Ev.dbSave th (some true), Ev.collectImages it.link]
      else [Ev.dbSave th (some true)]
    let _caption :=
      build_caption it.title it.desc it.link it.brand it.tag it.pub_date
    let tg_budget := pyMinInt 15 (o.tlPost - 3)
    if tg_budget < 4 then (st1, evs1, false)
    else
      let success := match o.postResp with
        | none => false
        | some b => b
      let evs2 := evs1 ++ [Ev.tgPost th o.postResp]
      if success then (st1.addPosted, evs2, true)
      else (st1.addErrors, evs2, true)

def processItem (sha : List Char → List Char) (thr : Int) (st : P3State)
    (it : Item) (o : ItemOracle) : P3State × List Ev × Bool :=
  if o.tlTop < 15 then (st, [], false)
  else if PUBLISH_BATCH_SIZE ≤ st.posted then (st, [], false)
  else if (match it.pub_date with
           | some p => decide (p.ts < thr)
           | none => false) then (st.addSkipTime, [], true)
  else if !is_fashion it.title it.desc it.feed_url it.brand then
    (st.addSkipFilter, [], true)
  else
    let th := make_title_hash sha it.title
    let ch := make_content_hash sha it.title
    let _dh := make_domain_hash sha it.feed_url
    if th ∈ st.postedHashes then (st.addSkipDupe, [], true)
    else if th ∈ st.knownTitle then (st.addSkipDupe, [], true)
    else if ch ∈ st.knownContent then (st.addSkipDupe, [], true)
    else if it.link ∈ st.knownLinks then (st.addSkipDupe, [], true)
    else
      let _trend := calc_trend_score it.title it.desc it.brand
      let save_budget := pyMinInt DB_TIMEOUT (o.tlSave - 10)
      if save_budget < 1 then (st, [], false)
      else savePublish st it o th ch

/-- The Phase 3 loop (src/main.py:414): fold the loop body over the sorted
candidates, each paired with its external responses, stopping when the
body reports a break. -/
def runPhase3 (sha : List Char → List Char) (thr : Int) :
    P3State → List (Item × ItemOracle) → P3State × List Ev
  | st, [] => (st, [])
  | st, (it, o) :: ps =>
    match processItem sha thr st it o with
    | (st1, evs, true) =>
      let r := runPhase3 sha thr st1 ps
      (r.1, evs ++ r.2)
    | (st1, evs, false) => (st1, evs)

/-- Recency ordering of the candidate sort (src/main.py:359): newest
publication first, candidates without a parseable date sorting as oldest
(datetime.min). -/
def recencyGe (a b : Item) : Bool :=
  match a.pub_date, b.pub_date with
  | none, none => true
  | none, some _ => false
  | some _, none => true
  | some x, some y => y.ts ≤ x.ts

/-- The candidate sort: Python list.sort with a key is a stable sort; the
insertion sort below is stable for the same ordering. -/
def sortItems (l : List Item) : List Item :=
  List.insertionSort (fun a b => recencyGe a b = true) l

/-- The structured result main returns: either the error result for
missing configuration, with its reason string, or the success summary
built by `_response` (src/main.py:606) with its seven counters. -/
inductive MainResult where
  | err (reason : String)
  | summary (posted feedsOk feedsFail entriesTotal skipDupe skipFilter
      errors : Nat)
deriving DecidableEq

/-- The external responses of one whole run: the `_time_left()` value at
the fetch-budget computation, the outcome of the parallel feed fetch of
Phase 1 (items gathered, none when the phase times out, which yields an
empty list) together with the per-feed counters the fetchers accumulated,
the `_time_left()` value at the db-budget computation, the Phase 2 bulk
load result as (title hash, content hash, link) triples (none when it
times out or errors), the absolute current time in seconds, and the
responses consumed by each Phase 3 iteration in order. -/
structure MainOracle where
  tl1 : Int
  feedsOk : Nat
  feedsFail : Nat
  feedsRetry : Nat
  feedItems : Option (List Item)
  tl2 : Int
  dbRecords : Option (List (List Char × List Char × List Char))
  nowTs : Int
  itemOrcs : List ItemOracle

/-- The empty Phase 3 state with the given seed sets. -/
def initState (kt kc kl : List (List Char)) : P3State :=
  ⟨kt, kc, kl, [], 0, 0, 0, 0, 0⟩

/-- Source main (src/main.py:284) at the granularity of its external
calls: load the configuration and return the error result immediately
when it is missing; otherwise run Phase 1 under its budget (stopping with
an all-zero summary when the budget is below five seconds), return the
summary when no entries were gathered, sort the candidates newest first,
run the bounded Phase 2 bulk load (seeding empty sets on timeout or when
its budget is not above two seconds, the nonempty-field filter of the
seeding loop included), then run Phase 3 and return the summary of the
final counters.  Concurrency inside Phase 1 is collapsed to one fetch
event, its gathered items and counters supplied by the oracle. -/
def runMain (sha : List Char → List Char) (env : Env) (orc : MainOracle) :
    MainResult × List Ev :=
  match loadConfig env with
  | none => (MainResult.err "missing_env_vars", [])
  | some _cfg =>
    let fetch_budget := pyMinInt FEEDS_TOTAL_TIMEOUT (orc.tl1 - 60)
    if fetch_budget < 5 then
      (MainResult.summary 0 0 0 0 0 0 0, [])
    else
      let all_items := orc.feedItems.getD []
      let entries_total := all_items.length
      if all_items.isEmpty then
        (MainResult.summary 0 orc.feedsOk orc.feedsFail entries_total 0 0 0,
         [Ev.fetchFeeds])
      else
        let sorted := sortItems all_items
        let db_budget := pyMinInt DB_TIMEOUT (orc.tl2 - 50)
        let seeded : P3State × List Ev :=
          if 2 < db_budget then
            match orc.dbRecords with
            | some recs =>
              (initState
                ((recs.map fun r => r.1).filter fun h => h ≠ [])
                ((recs.map fun r => r.2.1).filter fun h => h ≠ [])
                ((recs.map fun r => r.2.2).filter fun h => h ≠ []),
               [Ev.fetchFeeds, Ev.dbLoad])
            | none => (initState [] [] [], [Ev.fetchFeeds, Ev.dbLoad])
          else (initState [] [] [], [Ev.fetchFeeds])
        let thr := orc.nowTs - (HOURS_THRESHOLD : Int) * 3600
        let r := runPhase3 sha thr seeded.1 (sorted.zip orc.itemOrcs)
        (MainResult.summary r.1.posted orc.feedsOk orc.feedsFail
          entries_total r.1.skipDupe r.1.skipFilter r.1.errors,
         seeded.2 ++ r.2)

/-- An environment with the bot token missing, used to exercise the
missing-configuration path. -/
def envMissing : Env :=
  ⟨none, some "c", some "https://e", some "p", some "k", some "d",
   some "fashion_db"⟩

/-- A run oracle with no feed items and no store records. -/
def orcTrivial : MainOracle := ⟨0, 0, 0, 0, none, 0, none, 0, []⟩

/-- The empty Phase 3 state. -/
def p3Empty : P3State := initState [] [] []

/-- A concrete relevant candidate used to exercise the Phase 3 loop
body. -/
def itemW : Item :=
  ⟨"مد".toList, [], "l".toList, "b".toList, [], "http://x.y/f".toList,
   [], [], none⟩

/-- Generous per-item responses with a successful save and publish. -/
def orcSaveOk : ItemOracle :=
  ⟨100, 100, 100, 100, 100, some true, some [], some true⟩

/-- Generous per-item responses with the save rejected as a duplicate. -/
def orcSaveDup : ItemOracle :=
  ⟨100, 100, 100, 100, 100, some false, some [], some true⟩

/-- A channel whose album and photo sends both fail and whose caption
send succeeds. -/
def tgAllImagesFail : TgOracle := ⟨none, none, true, true⟩

theorem char_eq_of_toNat_eq {a b : Char} (h : a.toNat = b.toNat) : a = b :=
  Char.eq_of_val_eq (UInt32.ext h)

theorem char_toNat_ofNat (n : Nat) (h : n < 55296) :
    (Char.ofNat n).toNat = n := by
  simp only [Char.ofNat, Nat.isValidChar]
  rw [dif_pos (Or.inl h)]
  simp [Char.ofNatAux, Char.toNat, UInt32.toNat]

theorem foldl_if_add_nonneg {α : Type} (p : α → Bool) (k : Int) (hk : 0 ≤ k) :
    ∀ (l : List α) (init : Int), 0 ≤ init →
      0 ≤ l.foldl (fun s x => if p x then s + k else s) init := by
  intro l
  induction l with
  | nil => intro init h; simpa using h
  | cons a t ih =>
    intro init h
    simp only [List.foldl_cons]
    refine ih _ ?_
    split <;> omega

/-- C10: for every title, description and brand name, `_calc_trend_score`
returns an integer between 0 and 100 inclusive. -/
theorem trend_score_range (title desc brand_name : List Char) :
    0 ≤ calc_trend_score title desc brand_name ∧
      calc_trend_score title desc brand_name ≤ 100 := by
  constructor
  · simp only [calc_trend_score]
    split
    · exact foldl_if_add_nonneg _ 3 (by norm_num) _ _
        (foldl_if_add_nonneg _ 2 (by norm_num) _ _
          (foldl_if_add_nonneg _ 1 (by norm_num) _ _ le_rfl))
    · norm_num
  · simp only [calc_trend_score]
    split
    · next hle => exact hle
    · norm_num

/-- C5: whenever the lowercased concatenation of title and description
contains a block-list term, `_is_fashion` rejects, regardless of any
allow-list, brand-name or domain signal present. -/
theorem blocklist_precedence (title desc feed_url brand_name : List Char)
    (h : ∃ kw ∈ NEGATIVE_KEYWORDS,
      containsSub ((title ++ [' '] ++ desc).map asciiLower) kw = true) :
    is_fashion title desc feed_url brand_name = false := by
  simp only [is_fashion]
  rw [if_pos (List.any_eq_true.2 h)]

theorem blocklist_precedence_witness :
    (∃ kw ∈ NEGATIVE_KEYWORDS,
      containsSub (("مد فوتبال".toList ++ [' '] ++ "".toList).map asciiLower)
        kw = true) ∧
    is_fashion "مد فوتبال".toList "".toList "".toList "".toList = false :=
  ⟨by decide, blocklist_precedence _ _ _ _ (by decide)⟩

/-- C7 counterexample: on the title consisting of a teh marbuta and a
trailing space, `_make_content_hash` hashes a different string from the
light normalization the specification describes — the code additionally
strips outer whitespace and unifies teh marbuta to heh. -/
theorem content_hash_not_spec_normalization :
    make_content_hash id [tehMarbuta, ' '] ≠
      id (specContentNormalize [tehMarbuta, ' ']) := by decide

/-- C7 as amended: `_make_content_hash` equals the digest of the title
transformed by case-folding, outer-whitespace trimming, zero-width
stripping, yeh and kaf unification, and teh-marbuta-to-heh unification,
with token order preserved. -/
theorem content_hash_amended_normalization (sha : List Char → List Char)
    (title : List Char) :
    make_content_hash sha title = sha (specContentNormalizeAmended title) :=
  rfl

/-- C9: when a required environment variable is absent or empty, main
returns the error-status result immediately, with no external call made. -/
theorem missing_env_immediate_error (sha : List Char → List Char)
    (env : Env) (orc : MainOracle)
    (h : strFalsy env.token = true ∨ strFalsy env.chatId = true ∨
      strFalsy env.project = true ∨ strFalsy env.key = true ∨
      strFalsy env.databaseId = true) :
    runMain sha env orc = (MainResult.err "missing_env_vars", []) := by
  have hc : loadConfig env = none := by
    simp only [loadConfig]
    rcases h with h | h | h | h | h <;> simp [h]
  simp [runMain, hc]

theorem missing_env_immediate_error_witness :
    runMain id envMissing orcTrivial = (MainResult.err "missing_env_vars", []) :=
  missing_env_immediate_error id envMissing orcTrivial (Or.inl (by decide))

theorem fashion_stickers_ne_nil : FASHION_STICKERS ≠ [] := by
  simp [FASHION_STICKERS]

/-- C2: `_post_to_telegram` reports failure exactly when the caption send
fails, and the outcome never depends on the decorative sticker send. -/
theorem publish_failure_iff_caption_failure (o : TgOracle)
    (image_urls : List (List Char)) (caption : List Char) :
    ((post_to_telegram o image_urls caption).1 = false ↔
      o.captionOk = false) ∧
    (post_to_telegram (TgOracle.mk o.album o.photo o.captionOk false)
        image_urls caption).1 =
      (post_to_telegram o image_urls caption).1 := by
  obtain ⟨alb, ph, cap, stk⟩ := o
  rcases image_urls with _ | ⟨u, _ | ⟨v, rest⟩⟩ <;>
    cases alb <;> cases ph <;> cases cap <;>
    simp [post_to_telegram, fashion_stickers_ne_nil]

/-- C3: with at least two images, a failed album send falls back to a
single-photo send of the first image; if every image send fails (or the
only image fails), the caption step proceeds with no anchor; and the
caption message replies to the anchor exactly when one was established,
being standalone otherwise. -/
theorem publish_image_fallback (o : TgOracle) (u v : List Char)
    (rest : List (List Char)) (c : List Char) :
    (o.album = none →
      TgEv.photo u ∈ (post_to_telegram o (u :: v :: rest) c).2.2) ∧
    (o.album = none → o.photo = none →
      (post_to_telegram o (u :: v :: rest) c).2.1 = none) ∧
    (o.photo = none → (post_to_telegram o [u] c).2.1 = none) ∧
    (∀ (urls : List (List Char)) (r : Option Nat),
      TgEv.caption c r ∈ (post_to_telegram o urls c).2.2 ↔
        r = (post_to_telegram o urls c).2.1) := by
  obtain ⟨alb, ph, cap, stk⟩ := o
  refine ⟨?_, ?_, ?_, ?_⟩
  · intro halb
    subst halb
    cases ph <;> cases cap <;>
      simp [post_to_telegram, fashion_stickers_ne_nil]
  · intro halb hph
    subst halb
    subst hph
    cases cap <;> simp [post_to_telegram, fashion_stickers_ne_nil]
  · intro hph
    subst hph
    cases cap <;> simp [post_to_telegram, fashion_stickers_ne_nil]
  · intro urls r
    rcases urls with _ | ⟨u1, _ | ⟨v1, rest1⟩⟩ <;>
      cases alb <;> cases ph <;> cases cap <;>
      simp [post_to_telegram, fashion_stickers_ne_nil]

theorem publish_image_fallback_witness :
    TgEv.photo "u".toList ∈
      (post_to_telegram tgAllImagesFail
        ["u".toList, "v".toList] "c".toList).2.2 ∧
    (post_to_telegram tgAllImagesFail
      ["u".toList, "v".toList] "c".toList).2.1 = none ∧
    (post_to_telegram tgAllImagesFail ["u".toList] "c".toList).2.1 = none ∧
    (TgEv.caption "c".toList none ∈
      (post_to_telegram tgAllImagesFail
        ["u".toList, "v".toList] "c".toList).2.2 ↔
      none = (post_to_telegram tgAllImagesFail
        ["u".toList, "v".toList] "c".toList).2.1) :=
  ⟨(publish_image_fallback tgAllImagesFail "u".toList "v".toList []
      "c".toList).1 rfl,
   (publish_image_fallback tgAllImagesFail "u".toList "v".toList []
      "c".toList).2.1 rfl rfl,
   (publish_image_fallback tgAllImagesFail "u".toList "v".toList []
      "c".toList).2.2.1 rfl,
   (publish_image_fallback tgAllImagesFail "u".toList "v".toList []
      "c".toList).2.2.2 ["u".toList, "v".toList] none⟩

theorem savePublish_evs_shape (st : P3State) (it : Item) (o : ItemOracle)
    (th ch : List Char) :
    ((savePublish st it o th ch).2.1.head? =
      some (Ev.dbSave th o.saveResp)) ∧
    (∀ (h : List Char) (r : Option Bool),
      Ev.tgPost h r ∈ (savePublish st it o th ch).2.1 →
        h = th ∧ o.saveResp = some true) := by
  rcases hs : o.saveResp with _ | b
  · simp [savePublish, hs]
  · cases b
    · simp [savePublish, hs]
    · by_cases himg : 2 < pyMinInt PAGE_TIMEOUT (o.tlImg - 8) <;>
        by_cases htg : pyMinInt 15 (o.tlPost - 3) < 4 <;>
        rcases hp : o.postResp with _ | pb <;>
        simp [savePublish, hs, himg, htg, hp] <;>
        cases pb <;> simp

theorem processItem_trace_shape (sha : List Char → List Char) (thr : Int)
    (st : P3State) (it : Item) (o : ItemOracle) :
    (processItem sha thr st it o).2.1 = [] ∨
    (processItem sha thr st it o).2.1 =
      (savePublish st it o (make_title_hash sha it.title)
        (make_content_hash sha it.title)).2.1 := by
  unfold processItem
  by_cases h1 : o.tlTop < 15
  · simp [h1]
  by_cases h2 : PUBLISH_BATCH_SIZE ≤ st.posted
  · simp [h1, h2]
  by_cases h3 : (match it.pub_date with
    | some p => decide (p.ts < thr)
    | none => false) = true
  · simp [h1, h2, h3]
  by_cases h4 : (!is_fashion it.title it.desc it.feed_url it.brand) = true
  · simp [h1, h2, h3, h4]
  by_cases h5 : make_title_hash sha it.title ∈ st.postedHashes
  · simp [h1, h2, h3, h4, h5]
  by_cases h6 : make_title_hash sha it.title ∈ st.knownTitle
  · simp [h1, h2, h3, h4, h5, h6]
  by_cases h7 : make_content_hash sha it.title ∈ st.knownContent
  · simp [h1, h2, h3, h4, h5, h6, h7]
  by_cases h8 : it.link ∈ st.knownLinks
  · simp [h1, h2, h3, h4, h5, h6, h7, h8]
  by_cases h9 : pyMinInt DB_TIMEOUT (o.tlSave - 10) < 1
  · simp [h1, h2, h3, h4, h5, h6, h7, h8, h9]
  simp [h1, h2, h3, h4, h5, h6, h7, h8, h9]

/-- C1: in the Phase 3 loop body, a publish attempt carries the title hash
of the candidate and can only occur after the durable save of that hash
returned true in the same iteration — the save event opens the
iteration's trace whenever a publish event is present — and when the save
returns false or times out, no publish attempt happens in that
iteration. -/
theorem save_precedes_publish :
    (∀ (sha : List Char → List Char) (thr : Int) (st : P3State) (it : Item)
      (o : ItemOracle) (h : List Char) (r : Option Bool),
      Ev.tgPost h r ∈ (processItem sha thr st it o).2.1 →
        h = make_title_hash sha it.title ∧
        (processItem sha thr st it o).2.1.head? =
          some (Ev.dbSave h (some true))) ∧
    (∀ (sha : List Char → List Char) (thr : Int) (st : P3State) (it : Item)
      (o : ItemOracle), o.saveResp ≠ some true →
      ∀ (h : List Char) (r : Option Bool),
        Ev.tgPost h r ∉ (processItem sha thr st it o).2.1) := by
  constructor
  · intro sha thr st it o h r hmem
    rcases processItem_trace_shape sha thr st it o with he | he
    · rw [he] at hmem
      simp at hmem
    · rw [he] at hmem ⊢
      obtain ⟨hh, hs⟩ :=
        (savePublish_evs_shape st it o (make_title_hash sha it.title)
          (make_content_hash sha it.title)).2 h r hmem
      refine ⟨hh, ?_⟩
      rw [hh, ← hs]
      exact (savePublish_evs_shape st it o (make_title_hash sha it.title)
        (make_content_hash sha it.title)).1
  · intro sha thr st it o hsave h r hmem
    rcases processItem_trace_shape sha thr st it o with he | he
    · rw [he] at hmem
      simp at hmem
    · rw [he] at hmem
      exact hsave ((savePublish_evs_shape st it o
        (make_title_hash sha it.title)
        (make_content_hash sha it.title)).2 h r hmem).2

theorem save_precedes_publish_witness :
    ("مد".toList = make_title_hash id itemW.title ∧
      (processItem id 0 p3Empty itemW orcSaveOk).2.1.head? =
        some (Ev.dbSave "مد".toList (some true))) ∧
    Ev.tgPost [] none ∉ (processItem id 0 p3Empty itemW orcSaveDup).2.1 :=
  ⟨save_precedes_publish.1 id 0 p3Empty itemW orcSaveOk "مد".toList
      (some true) (by decide),
   save_precedes_publish.2 id 0 p3Empty itemW orcSaveDup (by decide)
      [] none⟩

theorem caption_swap (sb stt X Y dl lk hl : List Char) (hX : X ≠ [])
    (hY : Y ≠ []) :
    (pyJoin "\n\n".toList (captionParts sb stt Y dl lk hl)).length +
      X.length =
    (pyJoin "\n\n".toList (captionParts sb stt X dl lk hl)).length +
      Y.length := by
  by_cases hdl : dl = [] <;>
    simp [captionParts, hX, hY, hdl, pyJoin, List.length_append] <;>
    omega

/-- C6 as amended: the built caption fits in CAPTION_MAX whenever the
untrimmed caption already fits, or the escaped description is long enough
to absorb the overflow plus the five extra characters the trim removes.
Without that proviso the bound fails (see the counterexample): the trim
only ever shortens the description, so an oversized caption with an empty
or too-short description is returned over the ceiling. -/
theorem caption_length_bounded (title desc link brand_name brand_tag :
    List Char) (pub_date : Option PubDate)
    (h : (untrimmedCaption title desc link brand_name brand_tag
        pub_date).length ≤ CAPTION_MAX ∨
      (untrimmedCaption title desc link brand_name brand_tag
        pub_date).length - CAPTION_MAX + 5 ≤
        (escapeHtml (pyStrip desc)).length) :
    (build_caption title desc link brand_name brand_tag pub_date).length ≤
      CAPTION_MAX := by
  set sb := escapeHtml (pyStrip brand_name) with hsb
  set stt := escapeHtml (pyStrip title) with hstt
  set D := escapeHtml (pyStrip desc) with hD
  set dl := dateLine pub_date with hdl
  set hl := brand_tag ++ [' '] ++ FIXED_HASHTAGS with hhl
  set U := pyJoin "\n\n".toList (captionParts sb stt D dl link hl) with hU
  have hUeq : untrimmedCaption title desc link brand_name brand_tag
      pub_date = U := rfl
  rw [hUeq] at h
  have hb : build_caption title desc link brand_name brand_tag pub_date =
      if CAPTION_MAX < U.length then
        if D ≠ [] then
          pyJoin "\n\n".toList (captionParts sb stt
            (D.take (D.length - (U.length - CAPTION_MAX) - 5) ++ ['…'])
            dl link hl)
        else U
      else U := rfl
  by_cases hover : CAPTION_MAX < U.length
  · have hd5 : U.length - CAPTION_MAX + 5 ≤ D.length := by
      rcases h with h | h
      · omega
      · exact h
    have hDne : D ≠ [] := by
      intro he
      rw [he] at hd5
      simp at hd5
    rw [hb, if_pos hover, if_pos hDne]
    have hswap := caption_swap sb stt D
      (D.take (D.length - (U.length - CAPTION_MAX) - 5) ++ ['…'])
      dl link hl hDne (by simp)
    have hlen2 : (D.take (D.length - (U.length - CAPTION_MAX) - 5) ++
        ['…']).length = D.length - (U.length - CAPTION_MAX) - 5 + 1 := by
      simp [List.length_take]
      omega
    rw [← hU] at hswap
    omega
  · rw [hb, if_neg hover]
    omega

set_option maxRecDepth 4000 in
theorem caption_length_bounded_witness :
    ((untrimmedCaption "t".toList "d".toList "l".toList "b".toList
        "g".toList none).length ≤ CAPTION_MAX ∨
      (untrimmedCaption "t".toList "d".toList "l".toList "b".toList
        "g".toList none).length - CAPTION_MAX + 5 ≤
        (escapeHtml (pyStrip "d".toList)).length) ∧
    (build_caption "t".toList "d".toList "l".toList "b".toList "g".toList
      none).length ≤ CAPTION_MAX :=
  ⟨Or.inl (by decide),
   caption_length_bounded _ _ _ _ _ _ (Or.inl (by decide))⟩

set_option maxRecDepth 10000 in
/-- C6 counterexample: a 1100-character title with an empty description
produces a caption longer than CAPTION_MAX, because the overflow trim can
only shorten the description. -/
theorem caption_exceeds_ceiling :
    CAPTION_MAX <
      (build_caption (List.replicate 1100 'a') [] "x".toList "b".toList
        "g".toList none).length := by decide

theorem char_eq_iff_toNat (a b : Char) : a = b ↔ a.toNat = b.toNat :=
  ⟨fun h => congrArg Char.toNat h, char_eq_of_toNat_eq⟩

theorem pyIsSpace_iff (c : Char) : pyIsSpace c = true ↔
    ((9 ≤ c.toNat ∧ c.toNat ≤ 13) ∨ (28 ≤ c.toNat ∧ c.toNat ≤ 32) ∨
     c.toNat = 133 ∨ c.toNat = 160 ∨ c.toNat = 5760 ∨
     (8192 ≤ c.toNat ∧ c.toNat ≤ 8202) ∨ c.toNat = 8232 ∨
     c.toNat = 8233 ∨ c.toNat = 8239 ∨ c.toNat = 8287 ∨
     c.toNat = 12288) := by
  simp [pyIsSpace, Bool.or_eq_true, Bool.and_eq_true, decide_eq_true_eq,
    Nat.beq_eq_true_eq]
  tauto

theorem isZeroWidth_iff (c : Char) : isZeroWidth c = true ↔
    (c.toNat = 0x200c ∨ c.toNat = 0x200d ∨ c.toNat = 0x200e ∨
     c.toNat = 0x200f ∨ c.toNat = 0xfeff) := by
  simp [isZeroWidth, Bool.or_eq_true, Nat.beq_eq_true_eq]
  tauto

theorem isArabicDiacritic_iff (c : Char) : isArabicDiacritic c = true ↔
    ((0x64b ≤ c.toNat ∧ c.toNat ≤ 0x65f) ∨ c.toNat = 0x670) := by
  simp [isArabicDiacritic, Bool.or_eq_true, Bool.and_eq_true,
    decide_eq_true_eq, Nat.beq_eq_true_eq]

theorem isWordChar_iff (c : Char) : isWordChar c = true ↔
    ((97 ≤ c.toNat ∧ c.toNat ≤ 122) ∨ (65 ≤ c.toNat ∧ c.toNat ≤ 90) ∨
     (48 ≤ c.toNat ∧ c.toNat ≤ 57) ∨ c.toNat = 95) := by
  simp [isWordChar, Bool.or_eq_true, Bool.and_eq_true, decide_eq_true_eq,
    Nat.beq_eq_true_eq]
  tauto

theorem inArabicBlock_iff (c : Char) : inArabicBlock c = true ↔
    (0x600 ≤ c.toNat ∧ c.toNat ≤ 0x6ff) := by
  simp [inArabicBlock, Bool.and_eq_true, decide_eq_true_eq]

theorem asciiLower_toNat (c : Char) :
    (65 ≤ c.toNat ∧ c.toNat ≤ 90 ∧
      (asciiLower c).toNat = c.toNat + 32) ∨
    ((¬(65 ≤ c.toNat ∧ c.toNat ≤ 90)) ∧ asciiLower c = c) := by
  unfold asciiLower
  by_cases h : 65 ≤ c.toNat ∧ c.toNat ≤ 90
  · left
    refine ⟨h.1, h.2, ?_⟩
    rw [if_pos h]
    exact char_toNat_ofNat _ (by omega)
  · right
    rw [if_neg h]
    exact ⟨h, rfl⟩

theorem asciiLower_idem (c : Char) :
    asciiLower (asciiLower c) = asciiLower c := by
  rcases asciiLower_toNat c with ⟨h1, h2, h3⟩ | ⟨h1, h2⟩
  · rcases asciiLower_toNat (asciiLower c) with ⟨k1, k2, _⟩ | ⟨_, k2⟩
    · omega
    · exact k2
  · simp [h2]

theorem asciiLower_ws {c : Char} (h : pyIsSpace c = true) :
    asciiLower c = c := by
  rcases asciiLower_toNat c with ⟨h1, h2, _⟩ | ⟨_, h2⟩
  · rw [pyIsSpace_iff] at h
    omega
  · exact h2

theorem repChain_eq_of_toNat (c : Char)
    (h : c.toNat ≠ 0x64a ∧ c.toNat ≠ 0x643 ∧ c.toNat ≠ 0x629 ∧
      c.toNat ≠ 0x624 ∧ c.toNat ≠ 0x625 ∧ c.toNat ≠ 0x623 ∧
      c.toNat ≠ 0x626 ∧ c.toNat ≠ 0x649) : repChain c = c := by
  obtain ⟨h1, h2, h3, h4, h5, h6, h7, h8⟩ := h
  have e1 : ¬(c = arabicYeh) := by
    rw [char_eq_iff_toNat]; simpa [arabicYeh, char_toNat_ofNat] using h1
  have e2 : ¬(c = arabicKaf) := by
    rw [char_eq_iff_toNat]; simpa [arabicKaf, char_toNat_ofNat] using h2
  have e3 : ¬(c = tehMarbuta) := by
    rw [char_eq_iff_toNat]; simpa [tehMarbuta, char_toNat_ofNat] using h3
  have e4 : ¬(c = wawHamza) := by
    rw [char_eq_iff_toNat]; simpa [wawHamza, char_toNat_ofNat] using h4
  have e5 : ¬(c = alefHamzaBelow) := by
    rw [char_eq_iff_toNat]
    simpa [alefHamzaBelow, char_toNat_ofNat] using h5
  have e6 : ¬(c = alefHamzaAbove) := by
    rw [char_eq_iff_toNat]
    simpa [alefHamzaAbove, char_toNat_ofNat] using h6
  have e7 : ¬(c = yehHamza) := by
    rw [char_eq_iff_toNat]; simpa [yehHamza, char_toNat_ofNat] using h7
  have e8 : ¬(c = alefMaqsura) := by
    rw [char_eq_iff_toNat]; simpa [alefMaqsura, char_toNat_ofNat] using h8
  simp [repChain, e1, e2, e3, e4, e5, e6, e7, e8]

theorem repChain_cases (c : Char) :
    repChain c = c ∨ repChain c = farsiYeh ∨ repChain c = farsiKaf ∨
    repChain c = hehChar ∨ repChain c = wawChar ∨
    repChain c = alefChar := by
  by_cases h1 : c = arabicYeh
  · subst h1; decide
  by_cases h2 : c = arabicKaf
  · subst h2; decide
  by_cases h3 : c = tehMarbuta
  · subst h3; decide
  by_cases h4 : c = wawHamza
  · subst h4; decide
  by_cases h5 : c = alefHamzaBelow
  · subst h5; decide
  by_cases h6 : c = alefHamzaAbove
  · subst h6; decide
  by_cases h7 : c = yehHamza
  · subst h7; decide
  by_cases h8 : c = alefMaqsura
  · subst h8; decide
  left
  simp [repChain, h1, h2, h3, h4, h5, h6, h7, h8]

theorem normCharCore_ws {c : Char} (h : pyIsSpace c = true) :
    normCharCore c = some c := by
  have hcode := (pyIsSpace_iff c).1 h
  have hzw : isZeroWidth c = false := by
    cases hb : isZeroWidth c
    · rfl
    · have := (isZeroWidth_iff c).1 hb
      omega
  have hrep : repChain c = c := repChain_eq_of_toNat c (by omega)
  have hdia : isArabicDiacritic c = false := by
    cases hb : isArabicDiacritic c
    · rfl
    · have := (isArabicDiacritic_iff c).1 hb
      omega
  simp [normCharCore, hzw, hrep, hdia, h]

theorem normChar_ws {c : Char} (h : pyIsSpace c = true) :
    normChar c = some c := by
  rw [normChar, asciiLower_ws h]
  exact normCharCore_ws h

theorem normStages_nil : normStages [] = [] := rfl

theorem normStages_cons (c : Char) (cs : List Char) :
    normStages (c :: cs) = (normCharCore c).toList ++ normStages cs := by
  have h2 : ∀ (x : Char) (xs : List Char),
      repChar alefMaqsura farsiYeh (repChar yehHamza farsiYeh
        (repChar alefHamzaAbove alefChar (repChar alefHamzaBelow alefChar
          (repChar wawHamza wawChar (repChar tehMarbuta hehChar
            (repChar arabicKaf farsiKaf (repChar arabicYeh farsiYeh
              (x :: xs)))))))) =
      repChain x :: repChar alefMaqsura farsiYeh (repChar yehHamza farsiYeh
        (repChar alefHamzaAbove alefChar (repChar alefHamzaBelow alefChar
          (repChar wawHamza wawChar (repChar tehMarbuta hehChar
            (repChar arabicKaf farsiKaf (repChar arabicYeh farsiYeh
              xs))))))) := fun x xs => rfl
  by_cases hzw : isZeroWidth c
  · simp only [normStages, List.filter_cons, hzw, Bool.not_true,
      Bool.false_eq_true, if_false]
    simp [normCharCore, hzw]
  · simp only [normStages, List.filter_cons, hzw, Bool.not_false, if_true]
    rw [h2 c]
    rw [List.filter_cons]
    by_cases hdia : isArabicDiacritic (repChain c)
    · simp only [hdia, Bool.not_true, Bool.false_eq_true, if_false]
      simp [normCharCore, hzw, hdia]
    · simp only [hdia, Bool.not_false, if_true, List.map_cons]
      simp [normCharCore, hzw, hdia]

theorem normStages_eq_filterMap (l : List Char) :
    normStages l = l.filterMap normCharCore := by
  induction l with
  | nil => rfl
  | cons c cs ih =>
    rw [normStages_cons, List.filterMap_cons, ih]
    cases h : normCharCore c <;> simp [h]

theorem normalize_unfold (title : List Char) :
    normalize_for_hash title =
      if title = [] then []
      else pyJoin [' '] (sortTokens (pySplit
        (normStages (pyStrip (title.map asciiLower))))) := rfl

theorem spF_ne_nil (c : Char) (acc : List (List Char)) : spF c acc ≠ [] := by
  unfold spF
  rcases acc with _ | ⟨t, ts⟩
  · simp
  · by_cases h : pyIsSpace c <;> simp [h]

theorem foldr_spF_ne_nil (l : List Char) (acc : List (List Char))
    (h : acc ≠ []) : l.foldr spF acc ≠ [] := by
  cases l with
  | nil => simpa using h
  | cons c cs => exact spF_ne_nil c (cs.foldr spF acc)

theorem spRaw_ne_nil (l : List Char) : spRaw l ≠ [] :=
  foldr_spF_ne_nil l [[]] (by simp)

theorem spF_append (c : Char) (t : List Char) (ts R : List (List Char)) :
    spF c ((t :: ts) ++ R) = spF c (t :: ts) ++ R := by
  by_cases h : pyIsSpace c <;> simp [spF, h]

theorem foldr_spF_extend (xs : List Char) (a : List Char)
    (R : List (List Char)) :
    xs.foldr spF (a :: R) = xs.foldr spF [a] ++ R := by
  induction xs with
  | nil => rfl
  | cons c cs ih =>
    simp only [List.foldr_cons, ih]
    obtain ⟨t, ts, ht⟩ : ∃ t ts, cs.foldr spF [a] = t :: ts := by
      rcases hne : cs.foldr spF [a] with _ | ⟨t, ts⟩
      · exact absurd hne (foldr_spF_ne_nil cs [a] (by simp))
      · exact ⟨t, ts, rfl⟩
    rw [ht]
    exact spF_append c t ts R

theorem spRaw_cons_ws {w : Char} (hw : pyIsSpace w = true)
    (l : List Char) : spRaw (w :: l) = [] :: spRaw l := by
  unfold spRaw
  simp only [List.foldr_cons]
  obtain ⟨t, ts, ht⟩ : ∃ t ts, l.foldr spF [[]] = t :: ts := by
    rcases hne : l.foldr spF [[]] with _ | ⟨t, ts⟩
    · exact absurd hne (foldr_spF_ne_nil l [[]] (by simp))
    · exact ⟨t, ts, rfl⟩
  rw [ht]
  simp [spF, hw]

theorem spRaw_append_ws {w : Char} (hw : pyIsSpace w = true)
    (xs ys : List Char) : spRaw (xs ++ w :: ys) = spRaw xs ++ spRaw ys := by
  unfold spRaw
  rw [List.foldr_append]
  have : (w :: ys).foldr spF [[]] = [] :: ys.foldr spF [[]] :=
    spRaw_cons_ws hw ys
  rw [this, foldr_spF_extend]

theorem pySplit_cons_ws {w : Char} (hw : pyIsSpace w = true)
    (l : List Char) : pySplit (w :: l) = pySplit l := by
  unfold pySplit
  rw [spRaw_cons_ws hw]
  simp

theorem pySplit_append_ws {w : Char} (hw : pyIsSpace w = true)
    (xs ys : List Char) :
    pySplit (xs ++ w :: ys) = pySplit xs ++ pySplit ys := by
  unfold pySplit
  rw [spRaw_append_ws hw, List.filter_append]

theorem mem_spRaw_not_ws (l : List Char) :
    ∀ t ∈ spRaw l, ∀ c ∈ t, pyIsSpace c = false := by
  induction l with
  | nil =>
    intro t ht c hc
    simp [spRaw] at ht
    subst ht
    simp at hc
  | cons x xs ih =>
    intro t ht c hc
    by_cases hx : pyIsSpace x
    · rw [spRaw_cons_ws hx] at ht
      rw [List.mem_cons] at ht
      rcases ht with ht | ht
      · subst ht; simp at hc
      · exact ih t ht c hc
    · unfold spRaw at ht
      simp only [List.foldr_cons] at ht
      obtain ⟨u, us, hu⟩ : ∃ u us, xs.foldr spF [[]] = u :: us := by
        rcases hne : xs.foldr spF [[]] with _ | ⟨u, us⟩
        · exact absurd hne (foldr_spF_ne_nil xs [[]] (by simp))
        · exact ⟨u, us, rfl⟩
      rw [hu] at ht
      simp only [spF, hx, Bool.false_eq_true, if_false] at ht
      rw [List.mem_cons] at ht
      rcases ht with ht | ht
      · subst ht
        rw [List.mem_cons] at hc
        rcases hc with hc | hc
        · subst hc
          simpa using hx
        · exact ih u (by rw [spRaw, hu]; exact List.mem_cons_self u us) c hc
      · exact ih t (by rw [spRaw, hu]; exact List.mem_cons_of_mem u ht) c hc

theorem mem_spRaw_subset (l : List Char) :
    ∀ t ∈ spRaw l, ∀ c ∈ t, c ∈ l := by
  induction l with
  | nil =>
    intro t ht c hc
    simp [spRaw] at ht
    subst ht
    simp at hc
  | cons x xs ih =>
    intro t ht c hc
    by_cases hx : pyIsSpace x
    · rw [spRaw_cons_ws hx] at ht
      rw [List.mem_cons] at ht
      rcases ht with ht | ht
      · subst ht; simp at hc
      · exact List.mem_cons_of_mem x (ih t ht c hc)
    · unfold spRaw at ht
      simp only [List.foldr_cons] at ht
      obtain ⟨u, us, hu⟩ : ∃ u us, xs.foldr spF [[]] = u :: us := by
        rcases hne : xs.foldr spF [[]] with _ | ⟨u, us⟩
        · exact absurd hne (foldr_spF_ne_nil xs [[]] (by simp))
        · exact ⟨u, us, rfl⟩
      rw [hu] at ht
      simp only [spF, hx, Bool.false_eq_true, if_false] at ht
      rw [List.mem_cons] at ht
      rcases ht with ht | ht
      · subst ht
        rw [List.mem_cons] at hc
        rcases hc with hc | hc
        · rw [hc]; exact List.mem_cons_self x xs
        · exact List.mem_cons_of_mem x
            (ih u (by rw [spRaw, hu]; exact List.mem_cons_self u us) c hc)
      · exact List.mem_cons_of_mem x
          (ih t (by rw [spRaw, hu]; exact List.mem_cons_of_mem u ht) c hc)

theorem mem_pySplit_ne_nil {l : List Char} {t : List Char}
    (h : t ∈ pySplit l) : t ≠ [] := by
  unfold pySplit at h
  have := List.of_mem_filter h
  simpa using this

theorem mem_pySplit_not_ws {l t : List Char} (h : t ∈ pySplit l) :
    ∀ c ∈ t, pyIsSpace c = false :=
  mem_spRaw_not_ws l t (List.mem_of_mem_filter h)

theorem mem_pySplit_subset {l t : List Char} (h : t ∈ pySplit l) :
    ∀ c ∈ t, c ∈ l :=
  mem_spRaw_subset l t (List.mem_of_mem_filter h)

theorem spRaw_of_not_ws {l : List Char}
    (h : ∀ c ∈ l, pyIsSpace c = false) : spRaw l = [l] := by
  induction l with
  | nil => rfl
  | cons x xs ih =>
    have hx : pyIsSpace x = false := h x (List.mem_cons_self x xs)
    have hxs := ih fun c hc => h c (List.mem_cons_of_mem x hc)
    unfold spRaw
    simp only [List.foldr_cons]
    have : xs.foldr spF [[]] = [xs] := hxs
    rw [this]
    simp [spF, hx]

theorem pySplit_of_token {l : List Char} (hne : l ≠ [])
    (h : ∀ c ∈ l, pyIsSpace c = false) : pySplit l = [l] := by
  unfold pySplit
  rw [spRaw_of_not_ws h]
  simp [hne]

theorem pySplit_join {ts : List (List Char)}
    (h : ∀ t ∈ ts, t ≠ [] ∧ ∀ c ∈ t, pyIsSpace c = false) :
    pySplit (pyJoin [' '] ts) = ts := by
  induction ts with
  | nil => rfl
  | cons t rest ih =>
    rcases rest with _ | ⟨u, us⟩
    · have := h t (List.mem_cons_self t [])
      exact pySplit_of_token this.1 this.2
    · have ht := h t (List.mem_cons_self t (u :: us))
      have hrest := ih fun x hx => h x (List.mem_cons_of_mem t hx)
      have hjoin : pyJoin [' '] (t :: u :: us) =
          t ++ ' ' :: pyJoin [' '] (u :: us) := by
        simp [pyJoin]
      rw [hjoin, pySplit_append_ws (by decide), pySplit_of_token ht.1 ht.2,
        hrest]
      rfl

theorem spRaw_all_ws {l : List Char} (h : ∀ c ∈ l, pyIsSpace c = true) :
    ∀ t ∈ spRaw l, t = [] := by
  induction l with
  | nil =>
    intro t ht
    simpa [spRaw] using ht
  | cons x xs ih =>
    intro t ht
    rw [spRaw_cons_ws (h x (List.mem_cons_self x xs))] at ht
    rw [List.mem_cons] at ht
    rcases ht with ht | ht
    · exact ht
    · exact ih (fun c hc => h c (List.mem_cons_of_mem x hc)) t ht

theorem pySplit_wsrun_left {r : List Char} (xs : List Char)
    (h : ∀ c ∈ r, pyIsSpace c = true) :
    pySplit (r ++ xs) = pySplit xs := by
  induction r with
  | nil => rfl
  | cons w r2 ih =>
    have hw : pyIsSpace w = true := h w (List.mem_cons_self w r2)
    rw [List.cons_append, pySplit_cons_ws hw]
    exact ih fun c hc => h c (List.mem_cons_of_mem w hc)

theorem pySplit_wsrun_right {r : List Char} (xs : List Char)
    (h : ∀ c ∈ r, pyIsSpace c = true) :
    pySplit (xs ++ r) = pySplit xs := by
  rcases r with _ | ⟨w, r2⟩
  · rw [List.append_nil]
  · have hw : pyIsSpace w = true := h w (List.mem_cons_self w r2)
    unfold pySplit
    rw [spRaw_append_ws hw, List.filter_append]
    have hempty : (spRaw r2).filter (fun t => !t.isEmpty) = [] := by
      rw [List.filter_eq_nil_iff]
      intro t ht
      have := spRaw_all_ws
        (fun c hc => h c (List.mem_cons_of_mem w hc)) t ht
      simp [this]
    rw [hempty, List.append_nil]

theorem strip_decomp (y : List Char) :
    ∃ lead trail, (∀ c ∈ lead, pyIsSpace c = true) ∧
      (∀ c ∈ trail, pyIsSpace c = true) ∧
      y = lead ++ pyStrip y ++ trail := by
  refine ⟨y.takeWhile pyIsSpace,
    ((pyLStrip y).reverse.takeWhile pyIsSpace).reverse, ?_, ?_, ?_⟩
  · intro c hc
    exact List.mem_takeWhile_imp hc
  · intro c hc
    rw [List.mem_reverse] at hc
    exact List.mem_takeWhile_imp hc
  · have hmid : pyLStrip y = pyStrip y ++
        ((pyLStrip y).reverse.takeWhile pyIsSpace).reverse := by
      unfold pyStrip pyRStrip
      conv_lhs => rw [← List.reverse_reverse (pyLStrip y)]
      conv_lhs => rw [← List.takeWhile_append_dropWhile
        (p := pyIsSpace) (l := (pyLStrip y).reverse)]
      rw [List.reverse_append]
    conv_lhs => rw [← List.takeWhile_append_dropWhile
      (p := pyIsSpace) (l := y)]
    rw [List.append_assoc, ← hmid]
    rfl

theorem filterMap_wsrun {pc : Char → Option Char}
    (hws : ∀ c, pyIsSpace c = true → pc c = some c) {r : List Char}
    (hr : ∀ c ∈ r, pyIsSpace c = true) : r.filterMap pc = r := by
  induction r with
  | nil => rfl
  | cons w r2 ih =>
    rw [List.filterMap_cons, hws w (hr w (List.mem_cons_self w r2))]
    rw [ih fun c hc => hr c (List.mem_cons_of_mem w hc)]

theorem pySplit_filterMap_strip {pc : Char → Option Char}
    (hws : ∀ c, pyIsSpace c = true → pc c = some c) (y : List Char) :
    pySplit ((pyStrip y).filterMap pc) = pySplit (y.filterMap pc) := by
  obtain ⟨lead, trail, hlw, htw, hy⟩ := strip_decomp y
  conv_rhs => rw [hy]
  rw [List.filterMap_append, List.filterMap_append]
  rw [filterMap_wsrun hws hlw, filterMap_wsrun hws htw]
  rw [List.append_assoc, pySplit_wsrun_left _ hlw,
    pySplit_wsrun_right _ htw]

theorem dropWhile_head_false {p : Char → Bool} :
    ∀ {l : List Char} {y : Char} {ys : List Char}, l.dropWhile p = y :: ys →
      p y = false := by
  intro l
  induction l with
  | nil =>
    intro y ys h
    simp at h
  | cons a as ih =>
    intro y ys h
    rw [List.dropWhile_cons] at h
    by_cases hp : p a
    · rw [if_pos hp] at h
      exact ih h
    · rw [if_neg hp] at h
      injection h with h1 _
      rw [← h1]
      simpa using hp

theorem pySplit_filterMap_aux {pc : Char → Option Char}
    (hws : ∀ c, pyIsSpace c = true → pc c = some c) :
    ∀ (n : Nat) (l : List Char), l.length ≤ n →
      pySplit (l.filterMap pc) =
        ((pySplit l).map fun t => pySplit (t.filterMap pc)).flatten := by
  intro n
  induction n with
  | zero =>
    intro l hl
    have hnil : l = [] := List.eq_nil_of_length_eq_zero (Nat.le_zero.1 hl)
    subst hnil
    rfl
  | succ n ih =>
    intro l hl
    rcases l with _ | ⟨c, cs⟩
    · rfl
    · by_cases hc : pyIsSpace c
      · rw [List.filterMap_cons, hws c hc, pySplit_cons_ws hc,
          pySplit_cons_ws hc]
        exact ih cs (by simpa using Nat.le_of_succ_le_succ (by simpa using hl))
      · have hsplit : c :: cs =
            (c :: cs).takeWhile (fun d => !pyIsSpace d) ++
            (c :: cs).dropWhile (fun d => !pyIsSpace d) :=
          (List.takeWhile_append_dropWhile _ _).symm
        set t := (c :: cs).takeWhile (fun d => !pyIsSpace d) with htdef
        set r := (c :: cs).dropWhile (fun d => !pyIsSpace d) with hrdef
        have htne : t ≠ [] := by
          rw [htdef, List.takeWhile_cons]
          simp [hc]
        have htws : ∀ d ∈ t, pyIsSpace d = false := by
          intro d hd
          rw [htdef] at hd
          have := List.mem_takeWhile_imp hd
          simpa using this
        rcases hr2 : r with _ | ⟨w, r2⟩
        · rw [hsplit, hr2, List.append_nil]
          rw [pySplit_of_token htne htws]
          simp
        · have hw : pyIsSpace w = true := by
            have := dropWhile_head_false (hrdef ▸ hr2)
            simpa using this
          have hlen : r2.length ≤ n := by
            have h1 : (c :: cs).length = t.length + r.length := by
              conv_lhs => rw [hsplit]
              exact List.length_append _ _
            have h2 : 1 ≤ t.length := by
              rcases t with _ | _
              · exact absurd rfl htne
              · simp
            rw [hr2] at h1
            simp only [List.length_cons] at h1 hl
            omega
          rw [hsplit, hr2]
          rw [List.filterMap_append, List.filterMap_cons, hws w hw]
          rw [pySplit_append_ws hw]
          rw [pySplit_append_ws hw, pySplit_of_token htne htws]
          rw [ih r2 hlen]
          simp

theorem pySplit_filterMap {pc : Char → Option Char}
    (hws : ∀ c, pyIsSpace c = true → pc c = some c) (l : List Char) :
    pySplit (l.filterMap pc) =
      ((pySplit l).map fun t => pySplit (t.filterMap pc)).flatten :=
  pySplit_filterMap_aux hws l.length l le_rfl

theorem tokens_pipeline (title : List Char) :
    pySplit (normStages (pyStrip (title.map asciiLower))) =
      pySplit (title.filterMap normChar) := by
  rw [normStages_eq_filterMap]
  rw [pySplit_filterMap_strip (fun c h => normCharCore_ws h)
    (title.map asciiLower)]
  rw [List.filterMap_map]
  rfl

theorem tokens_normalize (title : List Char) :
    pySplit (normStages (pyStrip (title.map asciiLower))) =
      ((pySplit title).map fun t => pySplit (t.filterMap normChar)).flatten
    := by
  rw [tokens_pipeline]
  exact pySplit_filterMap (fun c h => normChar_ws h) title

theorem sortTokens_sorted (l : List (List Char)) :
    List.Sorted (fun a b : List Char => a ≤ b) (sortTokens l) :=
  List.sorted_insertionSort _ l

theorem sortTokens_perm (l : List (List Char)) : (sortTokens l).Perm l :=
  List.perm_insertionSort _ l

theorem sortTokens_congr {l₁ l₂ : List (List Char)} (h : l₁.Perm l₂) :
    sortTokens l₁ = sortTokens l₂ :=
  List.eq_of_perm_of_sorted
    ((sortTokens_perm l₁).trans (h.trans (sortTokens_perm l₂).symm))
    (sortTokens_sorted l₁) (sortTokens_sorted l₂)

theorem normalize_eq_flatten (t : List Char) :
    normalize_for_hash t = pyJoin [' ']
      (sortTokens (((pySplit t).map fun tok =>
        pySplit (tok.filterMap normChar)).flatten)) := by
  rw [normalize_unfold]
  by_cases h0 : t = []
  · subst h0
    rfl
  · rw [if_neg h0, tokens_normalize]

/-- C4: permuting the whitespace-delimited tokens of a title does not
change `_make_title_hash`: two titles whose raw token lists are
permutations of one another have equal normalizations, hence equal
digests. -/
theorem title_hash_order_independent (sha : List Char → List Char)
    (t1 t2 : List Char) (hperm : (pySplit t1).Perm (pySplit t2)) :
    make_title_hash sha t1 = make_title_hash sha t2 := by
  unfold make_title_hash
  congr 1
  rw [normalize_eq_flatten, normalize_eq_flatten]
  congr 1
  exact sortTokens_congr ((hperm.map _).flatten)

theorem title_hash_order_independent_witness :
    (pySplit "b a".toList).Perm (pySplit "a b".toList) ∧
      make_title_hash id "b a".toList = make_title_hash id "a b".toList :=
  ⟨by decide, title_hash_order_independent id _ _ (by decide)⟩

theorem normChar_proj {c d : Char} (h : normChar c = some d) :
    normChar d = some d := by
  simp only [normChar, normCharCore] at h
  by_cases hzw : isZeroWidth (asciiLower c)
  · rw [if_pos hzw] at h
    exact absurd h (by simp)
  · rw [if_neg hzw] at h
    by_cases hdia : isArabicDiacritic (repChain (asciiLower c))
    · rw [if_pos hdia] at h
      exact absurd h (by simp)
    · rw [if_neg hdia] at h
      rw [Option.some_inj] at h
      by_cases hkept : (isWordChar (repChain (asciiLower c)) ||
          pyIsSpace (repChain (asciiLower c)) ||
          inArabicBlock (repChain (asciiLower c))) = true
      · rw [if_pos hkept] at h
        subst h
        rcases repChain_cases (asciiLower c) with hcc | hcc | hcc | hcc |
          hcc | hcc
        · rw [hcc] at hdia hkept ⊢
          rw [normChar, asciiLower_idem]
          simp [normCharCore, hzw, hcc, hdia, hkept]
        · rw [hcc]
          decide
        · rw [hcc]
          decide
        · rw [hcc]
          decide
        · rw [hcc]
          decide
        · rw [hcc]
          decide
      · rw [if_neg hkept] at h
        subst h
        decide

theorem filterMap_normChar_self {l : List Char}
    (h : ∀ c ∈ l, normChar c = some c) : l.filterMap normChar = l := by
  induction l with
  | nil => rfl
  | cons c cs ih =>
    rw [List.filterMap_cons, h c (List.mem_cons_self c cs)]
    rw [ih fun x hx => h x (List.mem_cons_of_mem c hx)]

theorem mem_pyJoin {sep : List Char} {ts : List (List Char)} {c : Char}
    (h : c ∈ pyJoin sep ts) : c ∈ sep ∨ ∃ t ∈ ts, c ∈ t := by
  induction ts with
  | nil => simp [pyJoin] at h
  | cons t rest ih =>
    rcases rest with _ | ⟨u, us⟩
    · right
      exact ⟨t, by simp, by simpa [pyJoin] using h⟩
    · have hj : pyJoin sep (t :: u :: us) =
          t ++ sep ++ pyJoin sep (u :: us) := rfl
      rw [hj] at h
      rcases List.mem_append.1 h with h1 | h2
      · rcases List.mem_append.1 h1 with ha | hb
        · right
          exact ⟨t, List.mem_cons_self t _, ha⟩
        · left
          exact hb
      · rcases ih h2 with hs | ⟨t2, ht2, hc2⟩
        · left
          exact hs
        · right
          exact ⟨t2, List.mem_cons_of_mem t ht2, hc2⟩

theorem mem_pyStrip_subset {l : List Char} {c : Char}
    (h : c ∈ pyStrip l) : c ∈ l := by
  unfold pyStrip pyRStrip pyLStrip at h
  rw [List.mem_reverse] at h
  have h2 := List.Sublist.mem h (List.dropWhile_sublist pyIsSpace)
  rw [List.mem_reverse] at h2
  exact List.Sublist.mem h2 (List.dropWhile_sublist pyIsSpace)

theorem normalize_chars_stable {t : List Char} {c : Char}
    (h : c ∈ normalize_for_hash t) : normChar c = some c := by
  by_cases h0 : t = []
  · subst h0
    simp [normalize_for_hash] at h
  · rw [normalize_unfold, if_neg h0] at h
    rcases mem_pyJoin h with hs | ⟨tok, htok, hc⟩
    · rw [List.mem_singleton] at hs
      subst hs
      decide
    · have htok2 : tok ∈ pySplit (normStages (pyStrip (t.map asciiLower)))
        := (sortTokens_perm _).subset htok
      have hcin : c ∈ normStages (pyStrip (t.map asciiLower)) :=
        mem_pySplit_subset htok2 c hc
      rw [normStages_eq_filterMap] at hcin
      obtain ⟨src, hsrc, hmap⟩ := List.mem_filterMap.1 hcin
      have hsrc2 : src ∈ t.map asciiLower := mem_pyStrip_subset hsrc
      obtain ⟨c0, _, hc0⟩ := List.mem_map.1 hsrc2
      have hnc : normChar c0 = some c := by
        rw [normChar, hc0]
        exact hmap
      exact normChar_proj hnc

/-- C8: `_normalize_for_hash` is idempotent — normalizing an already
normalized title returns it unchanged. -/
theorem normalize_for_hash_idempotent (title : List Char) :
    normalize_for_hash (normalize_for_hash title) =
      normalize_for_hash title := by
  by_cases htitle : title = []
  · subst htitle
    rfl
  by_cases h0 : normalize_for_hash title = []
  · rw [h0]
    rfl
  · have hT0 : normalize_for_hash title = pyJoin [' ']
        (sortTokens (pySplit (normStages (pyStrip
          (title.map asciiLower))))) := by
      rw [normalize_unfold, if_neg htitle]
    rw [normalize_unfold, if_neg h0, tokens_pipeline]
    rw [filterMap_normChar_self fun c hc => normalize_chars_stable hc]
    have htoks : pySplit (normalize_for_hash title) =
        sortTokens (pySplit (normStages (pyStrip
          (title.map asciiLower)))) := by
      rw [hT0]
      apply pySplit_join
      intro tk htk
      have htk2 : tk ∈ pySplit (normStages (pyStrip
          (title.map asciiLower))) := (sortTokens_perm _).subset htk
      exact ⟨mem_pySplit_ne_nil htk2, mem_pySplit_not_ws htk2⟩
    rw [htoks, sortTokens_congr (sortTokens_perm _)]
    exact hT0.symm

end FashionBot
